import Mathlib

/-
Verification of the WASI preview 1 Unix provider (package wasiunix,
file wasiunix/provider.go) against its natural-language specification.

The development shallowly embeds the provider's data model and the
operations relevant to the checked claims.  Host system calls
(openat, close, fcntl, lseek, poll, readdir, stat) are modelled by
explicit oracle arguments carrying the host outcome, and every
operation additionally returns the list of host actions it performed,
so that properties of the form "performs no host fcntl" or "closes the
host handle exactly once" are statable.  Machine integers are modelled
as Nat (the bit operations used by the source never overflow) except
where signed 64-bit wrap-around matters, which is made explicit.
-/

namespace Wasi

/-- WASI errno values used by the embedded operations (wasi package). -/
inductive Errno where
  | ESUCCESS
  | EBADF
  | ENOTCAPABLE
  | EPERM
  | ENOTSUP
  | ENOSYS
  | EINVAL
  | ENOTDIR
  | ENOTSOCK
  | ECANCELED
  | ENOENT
  | EIO
  | EAGAIN
  deriving DecidableEq, Repr

/-- Rights are file descriptor rights, a 30-bit capability set (Go type
wasi.Rights, an unsigned 64-bit integer of which only the low 30 bits
are meaningful). -/
abbrev Rights := Nat

/-- Has is true if the flag is set.  If multiple flags are specified,
Has returns true if all flags are set (wasi.Rights.Has). -/
def Rights.Has (flags f : Rights) : Bool := flags &&& f == f

/-- HasAny is true if any flag in a set of flags is set
(wasi.Rights.HasAny). -/
def Rights.HasAny (flags f : Rights) : Bool := flags &&& f != 0

/-- Go's bit-clear operator a &^ b (AND NOT), on Nat. -/
def andn (a b : Nat) : Nat := a ^^^ (a &&& b)

def FDDataSyncRight : Rights := 1 <<< 0
def FDReadRight : Rights := 1 <<< 1
def FDSeekRight : Rights := 1 <<< 2
def FDStatSetFlagsRight : Rights := 1 <<< 3
def FDSyncRight : Rights := 1 <<< 4
def FDTellRight : Rights := 1 <<< 5
def FDWriteRight : Rights := 1 <<< 6
def FDAdviseRight : Rights := 1 <<< 7
def FDAllocateRight : Rights := 1 <<< 8
def PathCreateDirectoryRight : Rights := 1 <<< 9
def PathCreateFileRight : Rights := 1 <<< 10
def PathLinkSourceRight : Rights := 1 <<< 11
def PathLinkTargetRight : Rights := 1 <<< 12
def PathOpenRight : Rights := 1 <<< 13
def FDReadDirRight : Rights := 1 <<< 14
def PathReadLinkRight : Rights := 1 <<< 15
def PathRenameSourceRight : Rights := 1 <<< 16
def PathRenameTargetRight : Rights := 1 <<< 17
def PathFileStatGetRight : Rights := 1 <<< 18
def PathFileStatSetSizeRight : Rights := 1 <<< 19
def PathFileStatSetTimesRight : Rights := 1 <<< 20
def FDFileStatGetRight : Rights := 1 <<< 21
def FDFileStatSetSizeRight : Rights := 1 <<< 22
def FDFileStatSetTimesRight : Rights := 1 <<< 23
def PathSymlinkRight : Rights := 1 <<< 24
def PathRemoveDirectoryRight : Rights := 1 <<< 25
def PathUnlinkFileRight : Rights := 1 <<< 26
def PollFDReadWriteRight : Rights := 1 <<< 27
def SockShutdownRight : Rights := 1 <<< 28
def SockAcceptRight : Rights := 1 <<< 29

/-- AllRights is the set of all available rights: (1 << 30) - 1. -/
def AllRights : Rights := (1 <<< 30) - 1

/-- ReadRights are rights related to reads. -/
def ReadRights : Rights := FDReadRight ||| FDReadDirRight

/-- WriteRights are rights related to writes. -/
def WriteRights : Rights :=
  FDWriteRight ||| FDAllocateRight ||| PathFileStatSetSizeRight ||| FDDataSyncRight

/-- FDFlags is the wasi.FDFlags bitset; its Has method coincides with
Rights.Has, so the embedding reuses Rights.Has for all flag types. -/
abbrev FDFlags := Nat

def Append : FDFlags := 1
def DSync : FDFlags := 2
def NonBlock : FDFlags := 4
def RSync : FDFlags := 8
def Sync : FDFlags := 16

/-- OpenFlags is the wasi.OpenFlags bitset. -/
abbrev OpenFlags := Nat

def OpenCreate : OpenFlags := 1
def OpenDirectory : OpenFlags := 2
def OpenExclusive : OpenFlags := 4
def OpenTruncate : OpenFlags := 8

/-- LookupFlags is the wasi.LookupFlags bitset. -/
abbrev LookupFlags := Nat

def SymlinkFollow : LookupFlags := 1

/-- Abstime is the wasi.Abstime subscription clock flag. -/
def Abstime : Nat := 1

/-- Hangup is the wasi.Hangup event flag. -/
def Hangup : Nat := 1

/-- File types from the wasi package (only values the provider uses). -/
inductive FileType where
  | unknown
  | blockDevice
  | characterDevice
  | directory
  | regularFile
  | socketDGram
  | socketStream
  | symbolicLink
  deriving DecidableEq, Repr

/-- FDStat is cached information about a file descriptor (wasi.FDStat). -/
structure FDStat where
  fileType : FileType
  flags : FDFlags
  rightsBase : Rights
  rightsInheriting : Rights
  deriving DecidableEq, Repr

instance {ε α : Type} [DecidableEq ε] [DecidableEq α] : DecidableEq (Except ε α) :=
  fun a b =>
    match a, b with
    | .error e1, .error e2 =>
      if h : e1 = e2 then .isTrue (by rw [h]) else .isFalse (by intro hh; cases hh; exact h rfl)
    | .ok v1, .ok v2 =>
      if h : v1 = v2 then .isTrue (by rw [h]) else .isFalse (by intro hh; cases hh; exact h rfl)
    | .error _, .ok _ => .isFalse (by intro hh; cases hh)
    | .ok _, .error _ => .isFalse (by intro hh; cases hh)

/-- DirEnt models an os.DirEntry held in the provider's directory cache:
its name together with the outcome of its Info() call (the host stat,
already mapped to a WASI file type and inode; the mapping function
makeFileType lives outside the embedded sources). -/
structure DirEnt where
  name : String
  info : Except Errno (FileType × Nat)
  deriving DecidableEq, Repr

/-- A guest file descriptor number (wasi.FD; guest descriptors handled
by the table are non-negative). -/
abbrev FD := Nat

/-- fdinfo is the provider's per-descriptor record (wasiunix.fdinfo). -/
structure fdinfo where
  path : String
  fd : Int
  stat : FDStat
  dirEntries : List DirEnt
  deriving DecidableEq, Repr

/-- Modelled from the spec: the descriptor table of
internal/descriptor (not among the embedded sources) is a dense
growable sequence of optional slots; insert returns the smallest free
slot, assign places an entry at an explicit slot returning the prior
occupant, lookup and delete address a slot directly. -/
structure Table (α : Type) where
  slots : List (Option α)
  deriving DecidableEq, Repr

/-- The occupant of slot i, if any. -/
def Table.lookup {α : Type} (t : Table α) (i : Nat) : Option α :=
  t.slots.getD i none

/-- Index of the smallest free slot of a dense slot list. -/
def findFreeSlot {α : Type} : List (Option α) → Nat
  | [] => 0
  | none :: _ => 0
  | some _ :: rest => findFreeSlot rest + 1

/-- Write value v at index i, padding with empty slots as needed. -/
def setSlot {α : Type} : List (Option α) → Nat → Option α → List (Option α)
  | [], 0, v => [v]
  | [], n + 1, v => none :: setSlot [] n v
  | _ :: xs, 0, v => v :: xs
  | x :: xs, n + 1, v => x :: setSlot xs n v

/-- Modelled from the spec: insert places the entry at the smallest
non-negative slot number not currently in use and returns that number. -/
def Table.insert {α : Type} (t : Table α) (a : α) : Table α × Nat :=
  let i := findFreeSlot t.slots
  (⟨setSlot t.slots i (some a)⟩, i)

/-- Modelled from the spec: assign places the entry at the given slot,
growing the table if needed, and returns the prior occupant if any. -/
def Table.assign {α : Type} (t : Table α) (i : Nat) (a : α) : Option α × Table α :=
  (t.lookup i, ⟨setSlot t.slots i (some a)⟩)

/-- Modelled from the spec: delete empties the given slot. -/
def Table.delete {α : Type} (t : Table α) (i : Nat) : Table α :=
  ⟨setSlot t.slots i none⟩

theorem lookup_setSlot {α : Type} (l : List (Option α)) (i j : Nat) (v : Option α) :
    (Table.mk (setSlot l i v)).lookup j = if i = j then v else (Table.mk l).lookup j := by
  induction l generalizing i j with
  | nil =>
    induction i generalizing j with
    | zero =>
      cases j <;> simp [setSlot, Table.lookup, List.getD]
    | succ n ih =>
      cases j with
      | zero => simp [setSlot, Table.lookup, List.getD]
      | succ m =>
        have := ih m
        simp only [setSlot, Table.lookup, List.getD] at this ⊢
        simp only [List.get?] at this ⊢
        rw [this]
        simp [Nat.succ_inj']
  | cons x xs ih =>
    cases i with
    | zero =>
      cases j <;> simp [setSlot, Table.lookup, List.getD]
    | succ n =>
      cases j with
      | zero => simp [setSlot, Table.lookup, List.getD]
      | succ m =>
        have := ih n m
        simp only [setSlot, Table.lookup, List.getD] at this ⊢
        simp only [List.get?] at this ⊢
        rw [this]
        simp [Nat.succ_inj']

/-- The provider state: the descriptor table and the pre-open set
(wasiunix.Provider; the clock, random and hook fields do not
participate in the checked claims, and the scratch pollfds slice is
rebuilt on every poll call). -/
structure Provider where
  fds : Table fdinfo
  preopens : Table Unit
  deriving DecidableEq, Repr

/-- Host actions an operation may perform, recorded in order. -/
inductive HostAction where
  | openat (dirfd : Int) (path : String) (oflags : Nat) (mode : Nat)
  | close (hostfd : Int)
  | fcntlGetfl (hostfd : Int)
  | fcntlSetfl (hostfd : Int) (fl : Nat)
  | lseek (hostfd : Int) (delta : Int) (whence : Nat)
  deriving DecidableEq, Repr

def isPreopen (p : Provider) (fd : FD) : Bool :=
  (p.preopens.lookup fd).isSome

/-- wasiunix.Provider.lookupFD: table lookup followed by the rights
check; missing entry is EBADF, missing rights is ENOTCAPABLE. -/
def lookupFD (p : Provider) (guestfd : FD) (rights : Rights) : Except Errno fdinfo :=
  match p.fds.lookup guestfd with
  | none => .error .EBADF
  | some f =>
    if Rights.Has f.stat.rightsBase rights then .ok f else .error .ENOTCAPABLE

/-- wasiunix.Provider.lookupPreopenFD: EBADF unless the descriptor is a
pre-open, then the plain lookup, then ENOTDIR unless it is a directory. -/
def lookupPreopenFD (p : Provider) (guestfd : FD) (rights : Rights) : Except Errno fdinfo :=
  if !isPreopen p guestfd then .error .EBADF
  else
    match lookupFD p guestfd rights with
    | .error errno => .error errno
    | .ok f => if f.stat.fileType ≠ .directory then .error .ENOTDIR else .ok f

/-- wasiunix.Provider.FDClose: no rights required (lookup with rights 0);
deletes the descriptor from the table and from the pre-open set, then
closes the host handle.  closeResult is the host errno of unix.Close
(ESUCCESS when it returned nil). -/
def fdClose (p : Provider) (fd : FD) (closeResult : Errno) :
    Provider × Errno × List HostAction :=
  match lookupFD p fd 0 with
  | .error errno => (p, errno, [])
  | .ok f =>
    let p1 : Provider := ⟨p.fds.delete fd, p.preopens.delete fd⟩
    (p1, closeResult, [.close f.fd])

/-- listPre pat s is true when pat is a prefix of s (character lists). -/
def listPre : List Char → List Char → Bool
  | [], _ => true
  | _ :: _, [] => false
  | a :: as, b :: bs => a == b && listPre as bs

/-- strings.HasPrefix s pat: pat is a prefix of s. -/
def strStarts (s pat : String) : Bool := listPre pat.data s.data

/-- Split a character list at every slash, yielding the path components
(possibly empty strings, as with consecutive separators). -/
def splitSlashAux : List Char → List Char → List String
  | [], cur => [String.mk cur.reverse]
  | c :: cs, cur =>
    if c == '/' then String.mk cur.reverse :: splitSlashAux cs []
    else splitSlashAux cs (c :: cur)

/-- The element-processing loop of Go's path/filepath.Clean for a
slash-separated path: drop empty and dot components; a dot-dot pops the
previous component when one is available, is dropped at the root of a
rooted path, and is kept when it cannot be cancelled. -/
def cleanFold (rooted : Bool) : List String → List String → List String
  | acc, [] => acc
  | acc, e :: es =>
    if e == "" || e == "." then cleanFold rooted acc es
    else if e == ".." then
      if !acc.isEmpty && acc.getLast? != some ".." then cleanFold rooted acc.dropLast es
      else if rooted then cleanFold rooted acc es
      else cleanFold rooted (acc ++ [".."]) es
    else cleanFold rooted (acc ++ [e]) es

/-- Go's path/filepath.Clean on a Unix host: lexical normalization of
the path (shortest equivalent name). -/
def filepathClean (path : String) : String :=
  if path == "" then "."
  else
    let rooted := strStarts path "/"
    let out := cleanFold rooted [] (splitSlashAux path.data [])
    if rooted then
      if out.isEmpty then "/" else "/" ++ String.intercalate "/" out
    else
      if out.isEmpty then "." else String.intercalate "/" out

/-- Go's path/filepath.Join of two elements: non-empty elements joined
with a slash, then cleaned; all-empty input yields the empty string. -/
def joinPath (a b : String) : String :=
  if a == "" && b == "" then ""
  else if a == "" then filepathClean b
  else if b == "" then filepathClean a
  else filepathClean (a ++ "/" ++ b)

def oRDONLY : Nat := 0
def oWRONLY : Nat := 1
def oRDWR : Nat := 2
def oCREAT : Nat := 0o100
def oEXCL : Nat := 0o200
def oTRUNC : Nat := 0o1000
def oAPPEND : Nat := 0o2000
def oNONBLOCK : Nat := 0o4000
def oDSYNC : Nat := 0o10000
def oSYNC : Nat := 0o4010000
def oDIRECTORY : Nat := 0o200000
def oNOFOLLOW : Nat := 0o400000
def oCLOEXEC : Nat := 0o2000000

/-- The error checks of wasiunix.Provider.PathOpen that follow the
directory lookup, in source order: the sandbox check on the cleaned
path (EPERM), the two rights-clipping checks against the directory's
inheriting rights (ENOTCAPABLE), and the OpenCreate / OpenTruncate
directory-rights checks (ENOTCAPABLE).  The create and truncate checks
only depend on the directory entry and the flags, so hoisting them out
of the open-flag accumulation preserves the source's behaviour. -/
def pathOpenCheck (d : fdinfo) (path : String) (openFlags : OpenFlags)
    (rightsBase rightsInheriting : Rights) : Except Errno Unit :=
  let clean := filepathClean path
  if strStarts clean "/" || strStarts clean "../" then .error .EPERM
  else if andn (rightsBase &&& AllRights) d.stat.rightsInheriting ≠ 0 then .error .ENOTCAPABLE
  else if andn (rightsInheriting &&& AllRights) d.stat.rightsInheriting ≠ 0 then .error .ENOTCAPABLE
  else if Rights.Has openFlags OpenCreate && !Rights.Has d.stat.rightsBase PathCreateFileRight then
    .error .ENOTCAPABLE
  else if Rights.Has openFlags OpenTruncate && !Rights.Has d.stat.rightsBase PathFileStatSetSizeRight then
    .error .ENOTCAPABLE
  else .ok ()

/-- The rights computation of PathOpen: mask the requested rights to
AllRights, clip both against the directory's inheriting rights, and
strip FDSeekRight from the base rights when a directory is opened. -/
def pathOpenRights (d : fdinfo) (rightsBase rightsInheriting : Rights)
    (openFlags : OpenFlags) : Rights × Rights :=
  let rb := (rightsBase &&& AllRights) &&& d.stat.rightsInheriting
  let ri := (rightsInheriting &&& AllRights) &&& d.stat.rightsInheriting
  (if Rights.Has openFlags OpenDirectory then andn rb FDSeekRight else rb, ri)

/-- The host open-flag accumulation of PathOpen (source order), given
the already clipped base rights rb. -/
def pathOpenOFlags (lookupFlags : LookupFlags) (openFlags : OpenFlags)
    (fdFlags : FDFlags) (rb : Rights) : Nat :=
  let oflags := oCLOEXEC
  let oflags := if Rights.Has openFlags OpenDirectory then oflags ||| oDIRECTORY else oflags
  let oflags := if Rights.Has openFlags OpenCreate then oflags ||| oCREAT else oflags
  let oflags := if Rights.Has openFlags OpenExclusive then oflags ||| oEXCL else oflags
  let oflags := if Rights.Has openFlags OpenTruncate then oflags ||| oTRUNC else oflags
  let oflags := if Rights.Has fdFlags Append then oflags ||| oAPPEND else oflags
  let oflags := if Rights.Has fdFlags DSync then oflags ||| oDSYNC else oflags
  let oflags := if Rights.Has fdFlags Sync then oflags ||| oSYNC else oflags
  let oflags := if Rights.Has fdFlags NonBlock then oflags ||| oNONBLOCK else oflags
  let oflags := if !Rights.Has lookupFlags SymlinkFollow then oflags ||| oNOFOLLOW else oflags
  if Rights.Has openFlags OpenDirectory then oflags ||| oRDONLY
  else if Rights.HasAny rb ReadRights && Rights.HasAny rb WriteRights then oflags ||| oRDWR
  else if Rights.HasAny rb ReadRights then oflags ||| oRDONLY
  else if Rights.HasAny rb WriteRights then oflags ||| oWRONLY
  else oflags ||| oRDONLY

/-- wasiunix.Provider.PathOpen.  openatResult is the host outcome of
unix.Openat.  On success the new entry is inserted at the smallest
free guest slot. -/
def pathOpen (p : Provider) (fd : FD) (lookupFlags : LookupFlags) (path : String)
    (openFlags : OpenFlags) (rightsBase rightsInheriting : Rights) (fdFlags : FDFlags)
    (openatResult : Except Errno Int) :
    Provider × Except Errno FD × List HostAction :=
  match lookupFD p fd PathOpenRight with
  | .error errno => (p, .error errno, [])
  | .ok d =>
    match pathOpenCheck d path openFlags rightsBase rightsInheriting with
    | .error errno => (p, .error errno, [])
    | .ok _ =>
      let rb := (pathOpenRights d rightsBase rightsInheriting openFlags).1
      let ri := (pathOpenRights d rightsBase rightsInheriting openFlags).2
      let oflags := pathOpenOFlags lookupFlags openFlags fdFlags rb
      let mode := if oflags &&& oDIRECTORY ≠ 0 then 0 else 0o644
      let fileType := if oflags &&& oDIRECTORY ≠ 0 then FileType.directory else FileType.regularFile
      match openatResult with
      | .error err => (p, .error err, [.openat d.fd path oflags mode])
      | .ok hostfd =>
        let entry : fdinfo :=
          { path := joinPath d.path path
            fd := hostfd
            stat :=
              { fileType := fileType
                flags := fdFlags
                rightsBase := rb
                rightsInheriting := ri }
            dirEntries := [] }
        ({ p with fds := (p.fds.insert entry).1 }, .ok (p.fds.insert entry).2,
          [.openat d.fd path oflags mode])

/-- wasiunix.Provider.FDRenumber.  The source checks the pre-open set,
looks up the moved entry, assigns it at the target slot closing any
evicted occupant, and returns ENOSYS. -/
def fdRenumber (p : Provider) (fromFD toFD : FD) : Provider × Errno × List HostAction :=
  if isPreopen p fromFD || isPreopen p toFD then (p, .ENOTSUP, [])
  else
    match lookupFD p fromFD 0 with
    | .error errno => (p, errno, [])
    | .ok f =>
      let (replaced, fds1) := p.fds.assign toFD f
      match replaced with
      | some g => ({ p with fds := fds1 }, .ENOSYS, [.close g.fd])
      | none => ({ p with fds := fds1 }, .ENOSYS, [])

/-- wasiunix.Provider.FDStatSetRights: rights can only be preserved or
removed, not added; the masked requests must be subsets of the current
rights, and the entry's rights are intersected with the requests. -/
def fdStatSetRights (p : Provider) (fd : FD) (rightsBase rightsInheriting : Rights) :
    Provider × Errno :=
  match lookupFD p fd 0 with
  | .error errno => (p, errno)
  | .ok f =>
    let rb := rightsBase &&& AllRights
    let ri := rightsInheriting &&& AllRights
    if andn rb f.stat.rightsBase ≠ 0 then (p, .ENOTCAPABLE)
    else if andn ri f.stat.rightsInheriting ≠ 0 then (p, .ENOTCAPABLE)
    else
      let f1 :=
        { f with stat :=
            { f.stat with
                rightsBase := f.stat.rightsBase &&& rb
                rightsInheriting := f.stat.rightsInheriting &&& ri } }
      ({ p with fds := (p.fds.assign fd f1).2 }, .ESUCCESS)

/-- wasiunix.Provider.FDStatSetFlags.  getflResult and setflResult are
the host outcomes of the two fcntl calls (F_GETFL then F_SETFL). -/
def fdStatSetFlags (p : Provider) (fd : FD) (flags : FDFlags)
    (getflResult : Except Errno Nat) (setflResult : Except Errno Unit) :
    Provider × Errno × List HostAction :=
  match lookupFD p fd FDStatSetFlagsRight with
  | .error errno => (p, errno, [])
  | .ok f =>
    let changes := flags ^^^ f.stat.flags
    if changes = 0 then (p, .ESUCCESS, [])
    else if Rights.Has changes (Sync ||| DSync ||| RSync) then (p, .ENOSYS, [])
    else
      match getflResult with
      | .error err => (p, err, [.fcntlGetfl f.fd])
      | .ok fl =>
        let fl := if Rights.Has flags Append then fl ||| oAPPEND else andn fl oAPPEND
        let fl := if Rights.Has flags NonBlock then fl ||| oNONBLOCK else andn fl oNONBLOCK
        match setflResult with
        | .error err => (p, err, [.fcntlGetfl f.fd, .fcntlSetfl f.fd fl])
        | .ok _ =>
          let f1 := { f with stat := { f.stat with flags := f.stat.flags ^^^ changes } }
          ({ p with fds := (p.fds.assign fd f1).2 }, .ESUCCESS,
            [.fcntlGetfl f.fd, .fcntlSetfl f.fd fl])

/-- Whence values of wasi.Whence; values other than the three named
ones are mapped by the source to EINVAL. -/
inductive Whence where
  | seekStart
  | seekCurrent
  | seekEnd
  | seekOther
  deriving DecidableEq, Repr

def whenceSys : Whence → Nat
  | .seekStart => 0
  | .seekCurrent => 1
  | .seekEnd => 2
  | .seekOther => 3

/-- wasiunix.Provider.fdseek: shared implementation of FDSeek and
FDTell; looks up the descriptor with the given required rights, maps
the whence value, and issues the host lseek. -/
def fdseek (p : Provider) (fd : FD) (rights : Rights) (delta : Int) (whence : Whence)
    (lseekResult : Except Errno Nat) : Except Errno Nat × List HostAction :=
  match lookupFD p fd rights with
  | .error errno => (.error errno, [])
  | .ok f =>
    match whence with
    | .seekOther => (.error .EINVAL, [])
    | w =>
      match lseekResult with
      | .error err => (.error err, [.lseek f.fd delta (whenceSys w)])
      | .ok off => (.ok off, [.lseek f.fd delta (whenceSys w)])

/-- wasiunix.Provider.FDSeek requires FDSeekRight. -/
def fdSeek (p : Provider) (fd : FD) (delta : Int) (whence : Whence)
    (lseekResult : Except Errno Nat) : Except Errno Nat × List HostAction :=
  fdseek p fd FDSeekRight delta whence lseekResult

/-- wasiunix.Provider.FDTell requires FDTellRight and issues a
zero-delta SeekCurrent. -/
def fdTell (p : Provider) (fd : FD) (lseekResult : Except Errno Nat) :
    Except Errno Nat × List HostAction :=
  fdseek p fd FDTellRight 0 .seekCurrent lseekResult

/-- wasi.DirEntry: the fixed-size portion of a directory entry. -/
structure DirEntry where
  dtype : FileType
  inode : Nat
  nameLength : Nat
  next : Nat
  deriving DecidableEq, Repr

/-- wasi.DirEntryName: a directory entry together with its name. -/
structure DirEntryName where
  entry : DirEntry
  name : String
  deriving DecidableEq, Repr

/-- Modelled from the spec: unsafe.Sizeof(wasi.DirEntry{}) on the host
(the wasi.DirEntry struct declaration is outside the embedded sources);
the byte count accumulated per entry is this constant plus the name
length. -/
def dirEntSize : Nat := 24

/-- math.MaxInt on a 64-bit host. -/
def maxInt : Nat := 2 ^ 63 - 1

/-- The appending loop of FDReadDir, iterating over the cached entries
from position pos while the accumulated byte count n stays below the
buffer size limit; a failing Info() call aborts with its errno and the
entries appended so far. -/
def readDirLoop : List DirEnt → Nat → List DirEntryName → Nat → Nat →
    List DirEntryName × Errno
  | [], _, buffer, _, _ => (buffer, .ESUCCESS)
  | e :: rest, pos, buffer, n, limit =>
    if n < limit then
      match e.info with
      | .error err => (buffer, err)
      | .ok (ft, ino) =>
        readDirLoop rest (pos + 1)
          (buffer ++ [⟨⟨ft, ino, e.name.utf8ByteSize, pos + 1⟩, e.name⟩])
          (n + dirEntSize + e.name.utf8ByteSize) limit
    else (buffer, .ESUCCESS)

/-- wasiunix.Provider.FDReadDir.  readDirResult is the host outcome of
os.ReadDir on the entry's path; statDot and statDotDot are the host
outcomes of os.Stat on the path and on its parent, used to synthesize
the dot and dot-dot entries (which os.ReadDir strips); a failing stat
silently omits the corresponding synthetic entry.  On a lookup failure
the source returns a nil buffer; on later failures it returns the
buffer accumulated so far. -/
def fdReadDir (p : Provider) (fd : FD) (buffer : List DirEntryName)
    (bufferSizeBytes : Nat) (cookie : Nat)
    (readDirResult : Except Errno (List DirEnt))
    (statDot statDotDot : Except Errno (FileType × Nat)) :
    Provider × List DirEntryName × Errno :=
  match lookupFD p fd FDReadDirRight with
  | .error errno => (p, [], errno)
  | .ok f =>
    if cookie = 0 then
      match readDirResult with
      | .error err => (p, buffer, err)
      | .ok hostEntries =>
        let entries :=
          match statDot with
          | .ok i => hostEntries ++ [⟨".", .ok i⟩]
          | .error _ => hostEntries
        let entries :=
          match statDotDot with
          | .ok i => entries ++ [⟨"..", .ok i⟩]
          | .error _ => entries
        let f1 := { f with dirEntries := entries }
        let p1 := { p with fds := (p.fds.assign fd f1).2 }
        (p1, (readDirLoop entries 0 buffer 0 bufferSizeBytes).1,
          (readDirLoop entries 0 buffer 0 bufferSizeBytes).2)
    else if cookie > maxInt then (p, buffer, .EINVAL)
    else
      (p, (readDirLoop (f.dirEntries.drop cookie) cookie buffer 0 bufferSizeBytes).1,
        (readDirLoop (f.dirEntries.drop cookie) cookie buffer 0 bufferSizeBytes).2)

/-- Clock identifiers (wasi.ClockID). -/
inductive ClockID where
  | realtime
  | monotonic
  | processCPUTimeID
  | threadCPUTimeID
  deriving DecidableEq, Repr

/-- The payload of a poll subscription: a clock subscription or an FD
read/write readiness subscription (wasi.Subscription's union, after
ABI decoding). -/
inductive SubDetail where
  | clockSub (id : ClockID) (timeout : Nat) (flags : Nat)
  | fdReadSub (fd : FD)
  | fdWriteSub (fd : FD)
  deriving DecidableEq, Repr

/-- wasi.Subscription. -/
structure Subscription where
  userData : Nat
  detail : SubDetail
  deriving DecidableEq, Repr

inductive EventType where
  | fdRead
  | fdWrite
  | clock
  deriving DecidableEq, Repr

def subEventType (s : Subscription) : EventType :=
  match s.detail with
  | .clockSub .. => .clock
  | .fdReadSub _ => .fdRead
  | .fdWriteSub _ => .fdWrite

/-- wasi.Event. -/
structure Event where
  userData : Nat
  eventType : EventType
  errno : Errno
  nbytes : Nat
  flags : Nat
  deriving DecidableEq, Repr

def pollIN : Nat := 1
def pollOUT : Nat := 4
def pollERR : Nat := 8
def pollHUP : Nat := 16

/-- The conversion of a wasi.Timestamp (unsigned 64-bit) to a
time.Duration (signed 64-bit), with two's-complement wrap-around. -/
def toDuration (t : Nat) : Int :=
  if t < 2 ^ 63 then (t : Int) else (t : Int) - 2 ^ 64

/-- The subscription-processing loop of PollOneOff: FD subscriptions
are looked up with PollFDReadWriteRight (a failure aborts the whole
call with that errno) and appended to the pollfd list; a clock
subscription with a non-monotonic id or the Abstime flag aborts with
ENOSYS, and otherwise lowers the timeout.  The timeout starts at -1
(unset). -/
def pollGather (p : Provider) :
    List Subscription → List (Int × Nat) → Int → Except Errno (List (Int × Nat) × Int)
  | [], acc, timeout => .ok (acc, timeout)
  | s :: rest, acc, timeout =>
    match s.detail with
    | .fdReadSub fd =>
      match lookupFD p fd PollFDReadWriteRight with
      | .error errno => .error errno
      | .ok f => pollGather p rest (acc ++ [(f.fd, pollIN)]) timeout
    | .fdWriteSub fd =>
      match lookupFD p fd PollFDReadWriteRight with
      | .error errno => .error errno
      | .ok f => pollGather p rest (acc ++ [(f.fd, pollOUT)]) timeout
    | .clockSub id ctimeout flags =>
      if id ≠ ClockID.monotonic ∨ Rights.Has flags Abstime then .error .ENOSYS
      else
        let d := toDuration ctimeout
        let timeout :=
          if timeout < 0 then d
          else if 0 ≤ timeout ∧ d < timeout then d
          else timeout
        pollGather p rest acc timeout

/-- The event constructed for an FD subscription whose pollfd came back
with the given nonzero revents bits. -/
def mkPollEvent (s : Subscription) (rev : Nat) : Event :=
  { userData := s.userData
    eventType := subEventType s
    errno := if rev &&& pollERR ≠ 0 then .ECANCELED else .ESUCCESS
    nbytes :=
      if (subEventType s = .fdRead ∧ rev &&& pollIN ≠ 0) ∨
          (subEventType s = .fdWrite ∧ rev &&& pollOUT ≠ 0) then 1
      else 0
    flags := if rev &&& pollHUP ≠ 0 then Hangup else 0 }

/-- The event-collection loop of PollOneOff: clock subscriptions are
skipped; the j-th FD subscription reads the j-th pollfd's revents and
appends one event when they are nonzero. -/
def pollEvents (revFn : Nat → Nat) : List Subscription → Nat → List Event
  | [], _ => []
  | s :: rest, j =>
    match s.detail with
    | .clockSub .. => pollEvents revFn rest j
    | _ =>
      let rev := revFn j
      (if rev ≠ 0 then [mkPollEvent s rev] else []) ++ pollEvents revFn rest (j + 1)

/-- Modelled from the spec: poll(2) returns the number of pollfd
structures with nonzero revents; the source's final consistency check
compares that count with the length of the event list. -/
def readyCount (revFn : Nat → Nat) (k : Nat) : Nat :=
  (List.range k).countP fun i => revFn i != 0

/-- The outcome of PollOneOff: the (possibly extended) event list with
an errno, or a Go panic from the final consistency check. -/
inductive PollResult where
  | ok (events : List Event) (errno : Errno)
  | panicked
  deriving DecidableEq, Repr

/-- wasiunix.Provider.PollOneOff.  pollResult is the host outcome of
unix.Poll, given as the revents assignment for the pollfd list (the
returned ready count follows poll's contract via readyCount);
sleepResult is the outcome of the FD-less sleep path (an error when the
surrounding context was cancelled). -/
def pollOneOff (p : Provider) (subscriptions : List Subscription) (events : List Event)
    (pollResult : Except Errno (Nat → Nat)) (sleepResult : Except Errno Unit) :
    PollResult :=
  if subscriptions.length = 0 then .ok events .EINVAL
  else
    match pollGather p subscriptions [] (-1) with
    | .error errno => .ok events errno
    | .ok (pollfds, timeout) =>
      if pollfds.length = 0 then
        if 0 ≤ timeout then
          match sleepResult with
          | .error errno => .ok events errno
          | .ok _ => .ok events .ESUCCESS
        else .ok events .ESUCCESS
      else
        match pollResult with
        | .error err => .ok events err
        | .ok revFn =>
          let evs := events ++ pollEvents revFn subscriptions 0
          if readyCount revFn pollfds.length ≠ evs.length then .panicked
          else .ok evs .ESUCCESS

/-- Rights.subset a b is true when the capability set a is a subset of
b, expressed the way the source tests it: a &^ b == 0. -/
def Rights.subset (a b : Rights) : Bool := andn a b == 0

theorem Rights.Has_zero (x : Rights) : Rights.Has x 0 = true := by
  simp [Rights.Has, Nat.and_zero]

theorem andn_self (a : Nat) : andn a a = 0 := by
  unfold andn
  rw [Nat.and_self, Nat.xor_self]

theorem land_absorb_left (a b : Nat) : (a &&& b) &&& a = a &&& b := by
  rw [Nat.land_comm (a &&& b) a, ← Nat.land_assoc, Nat.and_self]

theorem andn_land_left (a b : Nat) : andn (a &&& b) a = 0 := by
  unfold andn
  rw [land_absorb_left, Nat.xor_self]

theorem Rights.subset_refl (a : Rights) : Rights.subset a a = true := by
  simp [Rights.subset, andn_self]

theorem Rights.subset_land_left (a b : Rights) : Rights.subset (a &&& b) a = true := by
  simp [Rights.subset, andn_land_left]

theorem Table.lookup_insert {α : Type} (t : Table α) (a : α) :
    (t.insert a).1.lookup (t.insert a).2 = some a := by
  unfold Table.insert
  simpa using lookup_setSlot t.slots (findFreeSlot t.slots) (findFreeSlot t.slots) (some a)

theorem Table.lookup_assign_self {α : Type} (t : Table α) (i : Nat) (a : α) :
    ((t.assign i a).2).lookup i = some a := by
  unfold Table.assign
  simpa using lookup_setSlot t.slots i i (some a)

theorem Table.lookup_delete_self {α : Type} (t : Table α) (i : Nat) :
    (t.delete i).lookup i = none := by
  unfold Table.delete
  simpa using lookup_setSlot t.slots i i none

theorem lookupFD_zero (p : Provider) (fd : FD) (f : fdinfo)
    (hf : p.fds.lookup fd = some f) : lookupFD p fd 0 = .ok f := by
  simp [lookupFD, hf, Rights.Has_zero]

/-- C9: FDClose requires no rights: on any live descriptor (whatever
its rights, pre-open or not) it removes the descriptor from the table
and from the pre-open set and closes the host handle exactly once (the
action trace of the call is exactly one close of the entry's host
descriptor); afterwards the descriptor lookups that every provider
operation performs first, and FDClose itself, return EBADF. -/
theorem fdClose_spec (p : Provider) (fd : FD) (f : fdinfo) (closeResult : Errno)
    (hf : p.fds.lookup fd = some f) :
    (fdClose p fd closeResult).2.2 = [HostAction.close f.fd] ∧
    (fdClose p fd closeResult).1.fds.lookup fd = none ∧
    isPreopen (fdClose p fd closeResult).1 fd = false ∧
    (∀ rights, lookupFD (fdClose p fd closeResult).1 fd rights = .error .EBADF) ∧
    (∀ rights, lookupPreopenFD (fdClose p fd closeResult).1 fd rights = .error .EBADF) ∧
    (∀ c2, fdClose (fdClose p fd closeResult).1 fd c2 =
      ((fdClose p fd closeResult).1, .EBADF, [])) := by
  have h0 : lookupFD p fd 0 = .ok f := lookupFD_zero p fd f hf
  have hres : fdClose p fd closeResult =
      (⟨p.fds.delete fd, p.preopens.delete fd⟩, closeResult, [.close f.fd]) := by
    simp [fdClose, h0]
  rw [hres]
  have hfds : (Table.delete p.fds fd).lookup fd = none := Table.lookup_delete_self p.fds fd
  have hpre : (Table.delete p.preopens fd).lookup fd = none :=
    Table.lookup_delete_self p.preopens fd
  have hlk : ∀ rights,
      lookupFD (⟨p.fds.delete fd, p.preopens.delete fd⟩ : Provider) fd rights =
        .error .EBADF := by
    intro rights
    simp [lookupFD, hfds]
  refine ⟨rfl, hfds, ?_, hlk, ?_, ?_⟩
  · simp [isPreopen, hpre]
  · intro rights
    simp [lookupPreopenFD, isPreopen, hpre]
  · intro c2
    simp [fdClose, hlk 0]

def statC9 : FDStat :=
  { fileType := .directory
    flags := 0
    rightsBase := 0
    rightsInheriting := 0 }

def entC9 : fdinfo := { path := "root", fd := 5, stat := statC9, dirEntries := [] }

def PC9 : Provider := ⟨⟨[some entC9]⟩, ⟨[some ()]⟩⟩

/-- Witness for C9 at a concrete pre-opened descriptor with empty
rights. -/
theorem fdClose_spec_witness :
    PC9.fds.lookup 0 = some entC9 ∧
    ((fdClose PC9 0 .ESUCCESS).2.2 = [HostAction.close 5] ∧
      (fdClose PC9 0 .ESUCCESS).1.fds.lookup 0 = none ∧
      isPreopen (fdClose PC9 0 .ESUCCESS).1 0 = false) := by
  have h := fdClose_spec PC9 0 entC9 .ESUCCESS (by decide)
  exact ⟨by decide, h.1, h.2.1, h.2.2.1⟩

/-- C4: FDStatSetRights never adds rights: a masked request that is not
a subset of the current base rights, or an inheriting request that is
not a subset of the current inheriting rights, fails ENOTCAPABLE with
the whole provider state unchanged; and whatever the outcome, the
entry's resulting rights are subsets of its prior rights. -/
theorem fdStatSetRights_spec (p : Provider) (fd : FD)
    (rightsBase rightsInheriting : Rights) (f : fdinfo)
    (hf : p.fds.lookup fd = some f) :
    ((andn (rightsBase &&& AllRights) f.stat.rightsBase ≠ 0 ∨
      andn (rightsInheriting &&& AllRights) f.stat.rightsInheriting ≠ 0) →
      fdStatSetRights p fd rightsBase rightsInheriting = (p, .ENOTCAPABLE)) ∧
    (∀ f1, (fdStatSetRights p fd rightsBase rightsInheriting).1.fds.lookup fd = some f1 →
      Rights.subset f1.stat.rightsBase f.stat.rightsBase = true ∧
      Rights.subset f1.stat.rightsInheriting f.stat.rightsInheriting = true) := by
  have h0 : lookupFD p fd 0 = .ok f := lookupFD_zero p fd f hf
  constructor
  · intro h
    rcases h with h | h
    · simp [fdStatSetRights, h0, h]
    · by_cases h2 : andn (rightsBase &&& AllRights) f.stat.rightsBase ≠ 0
      · simp [fdStatSetRights, h0, h2]
      · simp [fdStatSetRights, h0, h2, h]
  · intro f1 h1
    simp only [fdStatSetRights, h0] at h1
    by_cases h2 : andn (rightsBase &&& AllRights) f.stat.rightsBase ≠ 0
    · rw [if_pos h2] at h1
      cases hf.symm.trans h1
      exact ⟨Rights.subset_refl _, Rights.subset_refl _⟩
    · rw [if_neg h2] at h1
      by_cases h3 : andn (rightsInheriting &&& AllRights) f.stat.rightsInheriting ≠ 0
      · rw [if_pos h3] at h1
        cases hf.symm.trans h1
        exact ⟨Rights.subset_refl _, Rights.subset_refl _⟩
      · rw [if_neg h3] at h1
        cases (Table.lookup_assign_self p.fds fd _).symm.trans h1
        exact ⟨Rights.subset_land_left _ _, Rights.subset_land_left _ _⟩

def statC4 : FDStat :=
  { fileType := .regularFile
    flags := 0
    rightsBase := FDReadRight
    rightsInheriting := 0 }

def entC4 : fdinfo := { path := "f", fd := 6, stat := statC4, dirEntries := [] }

def PC4 : Provider := ⟨⟨[some entC4]⟩, ⟨[]⟩⟩

/-- Witness for C4: requesting a right the entry does not hold fails
ENOTCAPABLE with the state unchanged. -/
theorem fdStatSetRights_spec_witness :
    PC4.fds.lookup 0 = some entC4 ∧
    andn (FDWriteRight &&& AllRights) entC4.stat.rightsBase ≠ 0 ∧
    fdStatSetRights PC4 0 FDWriteRight 0 = (PC4, .ENOTCAPABLE) := by
  refine ⟨by decide, by decide, ?_⟩
  exact (fdStatSetRights_spec PC4 0 FDWriteRight 0 entC4 (by decide)).1 (Or.inl (by decide))

def statDirAll : FDStat :=
  { fileType := .directory
    flags := 0
    rightsBase := AllRights
    rightsInheriting := AllRights }

def entDirAll : fdinfo := { path := "tmp", fd := 5, stat := statDirAll, dirEntries := [] }

def PdirAll : Provider := ⟨⟨[some entDirAll]⟩, ⟨[some ()]⟩⟩

/-- C1 (failing input): the path ".." normalizes to itself, which
begins with ".." in the claim's sense, yet the sandbox check only
rejects cleaned paths with the strict prefixes "/" or "../"; a
PathOpen of ".." on a pre-opened directory therefore does not return
EPERM — it reaches the host openat and, when that succeeds, inserts a
new descriptor-table entry. -/
theorem pathOpen_bare_dotdot_not_rejected :
    filepathClean ".." = ".." ∧
    strStarts (filepathClean "..") "/" = false ∧
    strStarts (filepathClean "..") "../" = false ∧
    (pathOpen PdirAll 0 0 ".." 0 0 0 0 (.ok 7)).2.1 = .ok 1 ∧
    ((pathOpen PdirAll 0 0 ".." 0 0 0 0 (.ok 7)).1.fds.lookup 1).isSome = true ∧
    (pathOpen PdirAll 0 0 "../x" 0 0 0 0 (.ok 7)) = (PdirAll, .error .EPERM, []) := by
  decide

def statFileAll : FDStat :=
  { fileType := .regularFile
    flags := 0
    rightsBase := AllRights
    rightsInheriting := AllRights }

def entRenA : fdinfo := { path := "a", fd := 10, stat := statFileAll, dirEntries := [] }

def entRenB : fdinfo := { path := "b", fd := 11, stat := statFileAll, dirEntries := [] }

def Pren : Provider := ⟨⟨[some entRenA, some entRenB]⟩, ⟨[]⟩⟩

/-- C2 (failing input): renumbering the live non-pre-open descriptor 0
onto the live non-pre-open descriptor 1 does close the evicted host
handle, but the call returns ENOSYS instead of ESUCCESS, and slot 0 is
not vacated: both slots refer to the moved entry afterwards. -/
theorem fdRenumber_returns_enosys :
    fdRenumber Pren 0 1 =
      (⟨⟨[some entRenA, some entRenA]⟩, ⟨[]⟩⟩, .ENOSYS, [.close 11]) ∧
    (fdRenumber Pren 0 1).1.fds.lookup 0 = some entRenA ∧
    Errno.ENOSYS ≠ Errno.ESUCCESS := by
  decide

def statSetFlags : FDStat :=
  { fileType := .regularFile
    flags := 0
    rightsBase := FDStatSetFlagsRight
    rightsInheriting := 0 }

def entSetFlags : fdinfo := { path := "f", fd := 12, stat := statSetFlags, dirEntries := [] }

def PsetFlags : Provider := ⟨⟨[some entSetFlags]⟩, ⟨[]⟩⟩

/-- C5 (failing input): requesting flags = Sync on an entry with
current flags 0 makes the diff contain the Sync bit, yet
FDFlags.Has(Sync|DSync|RSync) demands all three bits, so the source
does not return ENOSYS: it performs both host fcntl calls, returns
ESUCCESS, and flips the cached Sync flag (which the fcntl never
applied to the host). -/
theorem fdStatSetFlags_sync_diff_not_rejected :
    Rights.HasAny (Sync ^^^ entSetFlags.stat.flags) (Sync ||| DSync ||| RSync) = true ∧
    Rights.Has (Sync ^^^ entSetFlags.stat.flags) (Sync ||| DSync ||| RSync) = false ∧
    (fdStatSetFlags PsetFlags 0 Sync (.ok 0) (.ok ())).2.1 = .ESUCCESS ∧
    (fdStatSetFlags PsetFlags 0 Sync (.ok 0) (.ok ())).2.2 =
      [.fcntlGetfl 12, .fcntlSetfl 12 0] ∧
    ((fdStatSetFlags PsetFlags 0 Sync (.ok 0) (.ok ())).1.fds.lookup 0).map
        (fun f => f.stat.flags) = some Sync := by
  decide

def statSeekOnly : FDStat :=
  { fileType := .regularFile
    flags := 0
    rightsBase := FDSeekRight
    rightsInheriting := 0 }

def entSeekOnly : fdinfo := { path := "f", fd := 13, stat := statSeekOnly, dirEntries := [] }

def PseekOnly : Provider := ⟨⟨[some entSeekOnly]⟩, ⟨[]⟩⟩

/-- C6 (failing input): on a live descriptor whose base rights hold
FDSeekRight but not FDTellRight, FDTell returns ENOTCAPABLE (the
source's lookup demands the literal FDTellRight, contradicting the
documented implication), while the zero-delta SeekCurrent FDSeek is
permitted. -/
theorem fdTell_not_implied_by_seek_right :
    Rights.Has entSeekOnly.stat.rightsBase FDSeekRight = true ∧
    (fdTell PseekOnly 0 (.ok 0)).1 = .error .ENOTCAPABLE ∧
    (fdSeek PseekOnly 0 0 .seekCurrent (.ok 0)).1 = .ok 0 := by
  decide

theorem pathOpenCheck_clip (d : fdinfo) (path : String) (openFlags : OpenFlags)
    (rightsBase rightsInheriting : Rights)
    (hpath : (strStarts (filepathClean path) "/" ||
      strStarts (filepathClean path) "../") = false)
    (h : andn (rightsBase &&& AllRights) d.stat.rightsInheriting ≠ 0 ∨
      andn (rightsInheriting &&& AllRights) d.stat.rightsInheriting ≠ 0) :
    pathOpenCheck d path openFlags rightsBase rightsInheriting = .error .ENOTCAPABLE := by
  simp only [pathOpenCheck]
  rw [if_neg (by simp [hpath])]
  rcases h with h | h
  · rw [if_pos h]
  · by_cases h2 : andn (rightsBase &&& AllRights) d.stat.rightsInheriting ≠ 0
    · rw [if_pos h2]
    · rw [if_neg h2, if_pos h]

/-- C3 (amended): for every successful PathOpen the new entry's base
rights equal the masked requested base rights intersected with the
directory's inheriting rights, except that FDSeekRight is additionally
removed when the OpenDirectory flag is set; the inheriting rights
equal the masked request intersected with the directory's inheriting
rights; and when either masked request is not a subset of the
directory's inheriting rights (the path having passed the sandbox
check), the call fails ENOTCAPABLE with the state unchanged. -/
theorem pathOpen_rights_clipping (p : Provider) (fd : FD) (lookupFlags : LookupFlags)
    (path : String) (openFlags : OpenFlags) (rightsBase rightsInheriting : Rights)
    (fdFlags : FDFlags) (openatResult : Except Errno Int) (d : fdinfo)
    (hd : lookupFD p fd PathOpenRight = .ok d) :
    ((strStarts (filepathClean path) "/" || strStarts (filepathClean path) "../") = false →
      (andn (rightsBase &&& AllRights) d.stat.rightsInheriting ≠ 0 ∨
        andn (rightsInheriting &&& AllRights) d.stat.rightsInheriting ≠ 0) →
      pathOpen p fd lookupFlags path openFlags rightsBase rightsInheriting fdFlags
        openatResult = (p, .error .ENOTCAPABLE, [])) ∧
    (∀ p1 nf tr,
      pathOpen p fd lookupFlags path openFlags rightsBase rightsInheriting fdFlags
        openatResult = (p1, .ok nf, tr) →
      ∃ e, p1.fds.lookup nf = some e ∧
        e.stat.rightsBase =
          (if Rights.Has openFlags OpenDirectory
            then andn ((rightsBase &&& AllRights) &&& d.stat.rightsInheriting) FDSeekRight
            else (rightsBase &&& AllRights) &&& d.stat.rightsInheriting) ∧
        e.stat.rightsInheriting =
          (rightsInheriting &&& AllRights) &&& d.stat.rightsInheriting) := by
  constructor
  · intro hpath h
    have hc := pathOpenCheck_clip d path openFlags rightsBase rightsInheriting hpath h
    simp [pathOpen, hd, hc]
  · intro p1 nf tr heq
    simp only [pathOpen, hd] at heq
    cases hc : pathOpenCheck d path openFlags rightsBase rightsInheriting with
    | error e =>
      rw [hc] at heq
      simp at heq
    | ok u =>
      rw [hc] at heq
      cases openatResult with
      | error e2 => simp at heq
      | ok hostfd =>
        simp only [Prod.mk.injEq, Except.ok.injEq] at heq
        obtain ⟨hp1, hnf, -⟩ := heq
        subst hp1
        subst hnf
        refine ⟨_, Table.lookup_insert p.fds _, ?_, ?_⟩
        · simp [pathOpenRights]
        · simp [pathOpenRights]

def statDirNoInherit : FDStat :=
  { fileType := .directory
    flags := 0
    rightsBase := AllRights
    rightsInheriting := 0 }

def entDirNoInherit : fdinfo :=
  { path := "tmp", fd := 5, stat := statDirNoInherit, dirEntries := [] }

def PdirNoInherit : Provider := ⟨⟨[some entDirNoInherit]⟩, ⟨[some ()]⟩⟩

/-- Witness for C3 at a pre-open whose inheriting rights are empty:
requesting FDReadRight fails ENOTCAPABLE and creates nothing. -/
theorem pathOpen_rights_clipping_witness :
    lookupFD PdirNoInherit 0 PathOpenRight = .ok entDirNoInherit ∧
    pathOpen PdirNoInherit 0 0 "sub" 0 FDReadRight 0 0 (.ok 7) =
      (PdirNoInherit, .error .ENOTCAPABLE, []) := by
  refine ⟨by decide, ?_⟩
  exact (pathOpen_rights_clipping PdirNoInherit 0 0 "sub" 0 FDReadRight 0 0 (.ok 7)
    entDirNoInherit (by decide)).1 (by decide) (Or.inl (by decide))

/-- C3 (counterexample): a successful PathOpen with the OpenDirectory
flag and requested base rights FDSeekRight yields an entry whose base
rights are 0, not the claimed requested ∩ inheriting (which is
FDSeekRight itself here). -/
theorem pathOpen_directory_strips_seek_right :
    (pathOpen PdirAll 0 0 "sub" OpenDirectory FDSeekRight 0 0 (.ok 9)).2.1 = .ok 1 ∧
    ((pathOpen PdirAll 0 0 "sub" OpenDirectory FDSeekRight 0 0 (.ok 9)).1.fds.lookup 1).map
        (fun e => e.stat.rightsBase) = some 0 ∧
    (0 : Nat) ≠ (FDSeekRight &&& AllRights) &&& entDirAll.stat.rightsInheriting := by
  decide

/-- An FD subscription whose descriptor lookup (with
PollFDReadWriteRight) succeeds; clock subscriptions pass trivially. -/
def fdSubOK (p : Provider) (s : Subscription) : Bool :=
  match s.detail with
  | .fdReadSub fd => (lookupFD p fd PollFDReadWriteRight).isOk
  | .fdWriteSub fd => (lookupFD p fd PollFDReadWriteRight).isOk
  | .clockSub .. => true

/-- A clock subscription the source rejects with ENOSYS: non-monotonic
id or the Abstime flag. -/
def isBadClock (s : Subscription) : Bool :=
  match s.detail with
  | .clockSub id _ flags => id != ClockID.monotonic || Rights.Has flags Abstime
  | _ => false

theorem pollGather_badclock (p : Provider) (s : Subscription) (hbad : isBadClock s = true) :
    ∀ (pre rest : List Subscription) (acc : List (Int × Nat)) (timeout : Int),
      (∀ t ∈ pre, fdSubOK p t = true) →
      pollGather p (pre ++ s :: rest) acc timeout = .error .ENOSYS := by
  intro pre
  induction pre with
  | nil =>
    intro rest acc timeout _
    obtain ⟨ud, detail⟩ := s
    cases detail with
    | clockSub id t flags =>
      simp only [isBadClock, Bool.or_eq_true, bne_iff_ne] at hbad
      simp only [List.nil_append, pollGather]
      rw [if_pos (by simpa using hbad)]
    | fdReadSub fd => simp [isBadClock] at hbad
    | fdWriteSub fd => simp [isBadClock] at hbad
  | cons t pre ih =>
    intro rest acc timeout hpre
    have ht : fdSubOK p t = true := hpre t (List.mem_cons_self t pre)
    have hrest : ∀ u ∈ pre, fdSubOK p u = true := fun u hu =>
      hpre u (List.mem_cons_of_mem t hu)
    obtain ⟨ud, detail⟩ := t
    cases detail with
    | fdReadSub fd =>
      simp only [fdSubOK] at ht
      cases hl : lookupFD p fd PollFDReadWriteRight with
      | error e => rw [hl] at ht; simp [Except.isOk, Except.toBool] at ht
      | ok f =>
        simp only [List.cons_append, pollGather, hl]
        exact ih rest _ timeout hrest
    | fdWriteSub fd =>
      simp only [fdSubOK] at ht
      cases hl : lookupFD p fd PollFDReadWriteRight with
      | error e => rw [hl] at ht; simp [Except.isOk, Except.toBool] at ht
      | ok f =>
        simp only [List.cons_append, pollGather, hl]
        exact ih rest _ timeout hrest
    | clockSub id tmo flags =>
      simp only [List.cons_append, pollGather]
      by_cases hb : id ≠ ClockID.monotonic ∨ Rights.Has flags Abstime
      · rw [if_pos hb]
      · rw [if_neg hb]
        exact ih rest _ _ hrest

/-- C7 (amended): a PollOneOff whose subscription list contains a
clock subscription with a non-monotonic id or the Abstime flag returns
ENOSYS and appends no events, provided every FD subscription that
precedes the offending clock subscription passes its descriptor
lookup (a failing earlier lookup aborts the call with that errno
instead). -/
theorem pollOneOff_badclock_enosys (p : Provider) (pre rest : List Subscription)
    (s : Subscription) (events : List Event) (pollResult : Except Errno (Nat → Nat))
    (sleepResult : Except Errno Unit)
    (hbad : isBadClock s = true)
    (hpre : ∀ t ∈ pre, fdSubOK p t = true) :
    pollOneOff p (pre ++ s :: rest) events pollResult sleepResult = .ok events .ENOSYS := by
  have hg := pollGather_badclock p s hbad pre rest [] (-1) hpre
  have hlen : ¬ (pre ++ s :: rest).length = 0 := by simp
  simp only [pollOneOff, hg]
  rw [if_neg hlen]

def statPoll : FDStat :=
  { fileType := .regularFile
    flags := 0
    rightsBase := PollFDReadWriteRight
    rightsInheriting := 0 }

def entPoll : fdinfo := { path := "f", fd := 14, stat := statPoll, dirEntries := [] }

def Ppoll : Provider := ⟨⟨[some entPoll]⟩, ⟨[]⟩⟩

/-- Witness for C7: a valid FD subscription followed by a realtime
clock subscription yields ENOSYS with no appended events. -/
theorem pollOneOff_badclock_enosys_witness :
    isBadClock ⟨1, .clockSub .realtime 0 0⟩ = true ∧
    (∀ t ∈ [(⟨0, .fdReadSub 0⟩ : Subscription)], fdSubOK Ppoll t = true) ∧
    pollOneOff Ppoll ([⟨0, .fdReadSub 0⟩] ++ ⟨1, .clockSub .realtime 0 0⟩ :: [])
      [] (.ok fun _ => 0) (.ok ()) = .ok [] .ENOSYS := by
  refine ⟨by decide, by decide, ?_⟩
  exact pollOneOff_badclock_enosys Ppoll [⟨0, .fdReadSub 0⟩] [] ⟨1, .clockSub .realtime 0 0⟩
    [] (.ok fun _ => 0) (.ok ()) (by decide) (by decide)

/-- C7 (counterexample): the subscription list contains a clock
subscription with a non-monotonic id, yet the call returns EBADF, not
ENOSYS, because the FD subscription before it fails its lookup first. -/
theorem pollOneOff_badclock_counterexample :
    pollOneOff (⟨⟨[]⟩, ⟨[]⟩⟩ : Provider)
      [⟨0, .fdReadSub 9⟩, ⟨1, .clockSub .realtime 0 0⟩] [] (.ok fun _ => 0) (.ok ()) =
      .ok [] .EBADF ∧
    isBadClock ⟨1, .clockSub .realtime 0 0⟩ = true ∧
    Errno.EBADF ≠ Errno.ENOSYS := by
  refine ⟨?_, by decide, by decide⟩
  rfl

/-- subOK: the subscription passes the first loop of PollOneOff
without aborting the call: a passing FD lookup, or a clock
subscription that is monotonic and relative. -/
def subOK (p : Provider) (s : Subscription) : Bool :=
  fdSubOK p s && !isBadClock s

/-- True for FD read/write subscriptions, false for clock
subscriptions. -/
def isFdSub (s : Subscription) : Bool :=
  match s.detail with
  | .clockSub .. => false
  | _ => true

def fdSubCount (subs : List Subscription) : Nat := subs.countP isFdSub

/-- The number of indices i in [j, j + k) with nonzero revents. -/
def readyIn (revFn : Nat → Nat) (j k : Nat) : Nat :=
  (List.range k).countP fun i => revFn (j + i) != 0

theorem readyIn_succ (revFn : Nat → Nat) (j k : Nat) :
    readyIn revFn j (k + 1) =
      (if revFn j != 0 then 1 else 0) + readyIn revFn (j + 1) k := by
  unfold readyIn
  rw [List.range_succ_eq_map, List.countP_cons, List.countP_map]
  have hfun : ((fun i => revFn (j + i) != 0) ∘ Nat.succ) =
      fun i => revFn (j + 1 + i) != 0 := by
    funext i
    simp only [Function.comp]
    rw [Nat.add_succ, Nat.succ_add]
  rw [hfun]
  simp [Nat.add_comm]

theorem readyCount_eq_readyIn (revFn : Nat → Nat) (k : Nat) :
    readyCount revFn k = readyIn revFn 0 k := by
  unfold readyCount readyIn
  congr 1
  funext i
  rw [Nat.zero_add]

theorem pollEvents_length (revFn : Nat → Nat) :
    ∀ (subs : List Subscription) (j : Nat),
      (pollEvents revFn subs j).length = readyIn revFn j (fdSubCount subs) := by
  intro subs
  induction subs with
  | nil => intro j; simp [pollEvents, fdSubCount, readyIn]
  | cons s rest ih =>
    intro j
    obtain ⟨ud, detail⟩ := s
    cases detail with
    | clockSub id tmo flags =>
      have hc : fdSubCount (⟨ud, .clockSub id tmo flags⟩ :: rest) = fdSubCount rest := by
        simp [fdSubCount, isFdSub, List.countP_cons]
      simp only [pollEvents]
      rw [ih j, hc]
    | fdReadSub fd =>
      have hc : fdSubCount (⟨ud, .fdReadSub fd⟩ :: rest) = fdSubCount rest + 1 := by
        simp [fdSubCount, isFdSub, List.countP_cons]
      rw [hc, readyIn_succ]
      simp only [pollEvents, List.length_append]
      rw [ih (j + 1)]
      by_cases hr : revFn j ≠ 0
      · rw [if_pos hr, if_pos (by simpa using hr)]
        simp [Nat.add_comm]
      · rw [if_neg hr, if_neg (by simpa using hr)]
        simp
    | fdWriteSub fd =>
      have hc : fdSubCount (⟨ud, .fdWriteSub fd⟩ :: rest) = fdSubCount rest + 1 := by
        simp [fdSubCount, isFdSub, List.countP_cons]
      rw [hc, readyIn_succ]
      simp only [pollEvents, List.length_append]
      rw [ih (j + 1)]
      by_cases hr : revFn j ≠ 0
      · rw [if_pos hr, if_pos (by simpa using hr)]
        simp [Nat.add_comm]
      · rw [if_neg hr, if_neg (by simpa using hr)]
        simp

theorem pollGather_ok (p : Provider) :
    ∀ (subs : List Subscription) (acc : List (Int × Nat)) (timeout : Int),
      (∀ t ∈ subs, subOK p t = true) →
      ∃ pollfds tmo, pollGather p subs acc timeout = .ok (pollfds, tmo) ∧
        pollfds.length = acc.length + fdSubCount subs := by
  intro subs
  induction subs with
  | nil =>
    intro acc timeout _
    exact ⟨acc, timeout, rfl, by simp [fdSubCount]⟩
  | cons s rest ih =>
    intro acc timeout hok
    have hs : subOK p s = true := hok s (List.mem_cons_self s rest)
    have hrest : ∀ t ∈ rest, subOK p t = true := fun t ht =>
      hok t (List.mem_cons_of_mem s ht)
    obtain ⟨ud, detail⟩ := s
    cases detail with
    | fdReadSub fd =>
      have hfd : fdSubOK p ⟨ud, .fdReadSub fd⟩ = true := by
        simp [subOK] at hs
        exact hs.1
      simp only [fdSubOK] at hfd
      cases hl : lookupFD p fd PollFDReadWriteRight with
      | error e => rw [hl] at hfd; simp [Except.isOk, Except.toBool] at hfd
      | ok f =>
        obtain ⟨pollfds, tmo, hg, hlen⟩ := ih (acc ++ [(f.fd, pollIN)]) timeout hrest
        refine ⟨pollfds, tmo, ?_, ?_⟩
        · simp only [pollGather, hl]
          exact hg
        · rw [hlen]
          simp [fdSubCount, isFdSub, List.countP_cons]
          omega
    | fdWriteSub fd =>
      have hfd : fdSubOK p ⟨ud, .fdWriteSub fd⟩ = true := by
        simp [subOK] at hs
        exact hs.1
      simp only [fdSubOK] at hfd
      cases hl : lookupFD p fd PollFDReadWriteRight with
      | error e => rw [hl] at hfd; simp [Except.isOk, Except.toBool] at hfd
      | ok f =>
        obtain ⟨pollfds, tmo, hg, hlen⟩ := ih (acc ++ [(f.fd, pollOUT)]) timeout hrest
        refine ⟨pollfds, tmo, ?_, ?_⟩
        · simp only [pollGather, hl]
          exact hg
        · rw [hlen]
          simp [fdSubCount, isFdSub, List.countP_cons]
          omega
    | clockSub id tmo flags =>
      have hgood : isBadClock ⟨ud, .clockSub id tmo flags⟩ = false := by
        simp [subOK] at hs
        exact hs.2
      simp only [isBadClock, Bool.or_eq_false_iff, bne_eq_false_iff_eq] at hgood
      have hcond : ¬ (id ≠ ClockID.monotonic ∨ Rights.Has flags Abstime) := by
        push_neg
        exact ⟨hgood.1, by simp [hgood.2]⟩
      obtain ⟨pollfds, tmo2, hg, hlen⟩ := ih acc _ hrest
      refine ⟨pollfds, tmo2, ?_, ?_⟩
      · simp only [pollGather]
        rw [if_neg hcond]
        exact hg
      · have hc : fdSubCount (⟨ud, .clockSub id tmo flags⟩ :: rest) = fdSubCount rest := by
          simp [fdSubCount, isFdSub, List.countP_cons]
        rw [hlen, hc]

/-- C10: when PollOneOff has at least one FD subscription, every
subscription passes the first loop, and the host poll succeeds with
revents assignment revFn, the final consistency check panics exactly
when the caller passed a non-empty events list: the appended events
are in bijection with the ready poll slots, but the check compares the
ready count against the whole list, pre-existing entries included. -/
theorem pollOneOff_panic_iff (p : Provider) (subs : List Subscription)
    (events : List Event) (revFn : Nat → Nat) (sleepResult : Except Errno Unit)
    (hok : ∀ t ∈ subs, subOK p t = true)
    (hfd : 0 < fdSubCount subs) :
    (pollOneOff p subs events (.ok revFn) sleepResult = .panicked ↔ events ≠ []) := by
  obtain ⟨pollfds, tmo, hg, hlen⟩ := pollGather_ok p subs [] (-1) hok
  have hsublen : ¬ subs.length = 0 := by
    cases subs with
    | nil => simp [fdSubCount] at hfd
    | cons a l => simp
  have hplen : ¬ pollfds.length = 0 := by
    rw [hlen]
    simp
    omega
  simp only [pollOneOff, hg]
  rw [if_neg hsublen, if_neg hplen]
  have hrc : readyCount revFn pollfds.length = readyIn revFn 0 (fdSubCount subs) := by
    rw [readyCount_eq_readyIn, hlen]
    simp
  have hev : (events ++ pollEvents revFn subs 0).length =
      events.length + readyIn revFn 0 (fdSubCount subs) := by
    rw [List.length_append, pollEvents_length]
  by_cases he : events = []
  · subst he
    have hcond : ¬ readyCount revFn pollfds.length ≠
        (([] : List Event) ++ pollEvents revFn subs 0).length := by
      rw [hrc, hev]
      simp
    rw [if_neg hcond]
    simp
  · have hne : events.length ≠ 0 := by
      simpa [List.length_eq_zero] using he
    have hcond : readyCount revFn pollfds.length ≠
        (events ++ pollEvents revFn subs 0).length := by
      rw [hrc, hev]
      omega
    rw [if_pos hcond]
    simpa using he

/-- Witness for C10: with one ready FD subscription and one
pre-existing event, the call panics. -/
theorem pollOneOff_panic_iff_witness :
    (∀ t ∈ [(⟨0, .fdReadSub 0⟩ : Subscription)], subOK Ppoll t = true) ∧
    0 < fdSubCount [(⟨0, .fdReadSub 0⟩ : Subscription)] ∧
    (pollOneOff Ppoll [⟨0, .fdReadSub 0⟩] [⟨7, .clock, .ESUCCESS, 0, 0⟩]
        (.ok fun _ => 1) (.ok ()) = .panicked ↔
      ([⟨7, .clock, .ESUCCESS, 0, 0⟩] : List Event) ≠ []) := by
  refine ⟨by decide, by decide, ?_⟩
  exact pollOneOff_panic_iff Ppoll [⟨0, .fdReadSub 0⟩] [⟨7, .clock, .ESUCCESS, 0, 0⟩]
    (fun _ => 1) (.ok ()) (by decide) (by decide)

/-- The directory entry emitted for cache element e at index pos: its
Next cookie is the index plus one (the error branch is unreachable for
entries whose Info succeeded). -/
def mkEntryName (e : DirEnt) (pos : Nat) : DirEntryName :=
  match e.info with
  | .ok (ft, ino) => ⟨⟨ft, ino, e.name.utf8ByteSize, pos + 1⟩, e.name⟩
  | .error _ => ⟨⟨.unknown, 0, e.name.utf8ByteSize, pos + 1⟩, e.name⟩

/-- The entries FDReadDir appends, as the claim describes them:
starting at index pos into the remaining listing, one entry per
element, accumulating dirEntSize plus the name length into the byte
count and stopping as soon as that count reaches or exceeds the limit
or the listing is exhausted. -/
def specEmit : List DirEnt → Nat → Nat → Nat → List DirEntryName
  | [], _, _, _ => []
  | e :: rest, pos, n, limit =>
    if n < limit then
      mkEntryName e pos :: specEmit rest (pos + 1) (n + dirEntSize + e.name.utf8ByteSize) limit
    else []

/-- The directory listing in effect for an FDReadDir call: the
refreshed cache (host entries, then dot, then dot-dot) when the cookie
is zero, the entry's existing cache otherwise. -/
def cacheAfter (f : fdinfo) (entries : List DirEnt) (di ddi : FileType × Nat)
    (cookie : Nat) : List DirEnt :=
  if cookie = 0 then entries ++ [⟨".", .ok di⟩, ⟨"..", .ok ddi⟩] else f.dirEntries

theorem mkEntryName_next (e : DirEnt) (pos : Nat) :
    (mkEntryName e pos).entry.next = pos + 1 := by
  unfold mkEntryName
  cases hi : e.info with
  | error err => rfl
  | ok pr =>
    obtain ⟨ft, ino⟩ := pr
    rfl

theorem readDirLoop_ok :
    ∀ (l : List DirEnt) (pos : Nat) (buffer : List DirEntryName) (n limit : Nat),
      (∀ e ∈ l, e.info.isOk = true) →
      readDirLoop l pos buffer n limit = (buffer ++ specEmit l pos n limit, .ESUCCESS) := by
  intro l
  induction l with
  | nil =>
    intro pos buffer n limit _
    simp [readDirLoop, specEmit]
  | cons e rest ih =>
    intro pos buffer n limit hok
    have he : e.info.isOk = true := hok e (List.mem_cons_self e rest)
    have hrest : ∀ x ∈ rest, x.info.isOk = true := fun x hx =>
      hok x (List.mem_cons_of_mem e hx)
    by_cases hn : n < limit
    · cases hi : e.info with
      | error err =>
        rw [hi] at he
        simp [Except.isOk, Except.toBool] at he
      | ok pr =>
        obtain ⟨ft, ino⟩ := pr
        simp only [readDirLoop, specEmit, mkEntryName, hi]
        rw [if_pos hn, if_pos hn]
        rw [ih (pos + 1) _ (n + dirEntSize + e.name.utf8ByteSize) limit hrest]
        simp
    · simp only [readDirLoop, specEmit]
      rw [if_neg hn, if_neg hn]
      simp

theorem specEmit_next :
    ∀ (l : List DirEnt) (pos n limit : Nat) (i : Nat) (x : DirEntryName),
      (specEmit l pos n limit).get? i = some x → x.entry.next = pos + i + 1 := by
  intro l
  induction l with
  | nil =>
    intro pos n limit i x h
    simp [specEmit] at h
  | cons e rest ih =>
    intro pos n limit i x h
    by_cases hn : n < limit
    · simp only [specEmit] at h
      rw [if_pos hn] at h
      cases i with
      | zero =>
        simp only [List.get?] at h
        cases h
        rw [mkEntryName_next]
      | succ i2 =>
        simp only [List.get?] at h
        have := ih (pos + 1) _ limit i2 x h
        omega
    · simp only [specEmit] at h
      rw [if_neg hn] at h
      simp at h

/-- C8: FDReadDir on an entry holding FDReadDirRight: a zero cookie
refreshes the cached listing from the host and appends the synthetic
dot and dot-dot entries, in that order, after all host entries; a
cookie above MaxInt fails EINVAL with nothing appended; otherwise the
call appends, after the caller's buffer, exactly the entries of the
listing in effect starting at index cookie, each entry's Next field
being its index plus one, stopping once the accumulated byte count
(dirEntSize plus name length per entry) reaches the buffer size limit
or the listing is exhausted. -/
theorem fdReadDir_spec (p : Provider) (fd : FD) (f : fdinfo) (buffer : List DirEntryName)
    (limit cookie : Nat) (entries : List DirEnt) (di ddi : FileType × Nat)
    (hf : p.fds.lookup fd = some f)
    (hr : Rights.Has f.stat.rightsBase FDReadDirRight = true) :
    (cookie = 0 →
      (fdReadDir p fd buffer limit cookie (.ok entries) (.ok di) (.ok ddi)).1.fds.lookup fd =
        some { f with dirEntries := entries ++ [⟨".", .ok di⟩, ⟨"..", .ok ddi⟩] }) ∧
    (cookie > maxInt →
      fdReadDir p fd buffer limit cookie (.ok entries) (.ok di) (.ok ddi) =
        (p, buffer, .EINVAL)) ∧
    (cookie ≤ maxInt →
      (∀ e ∈ (cacheAfter f entries di ddi cookie).drop cookie, e.info.isOk = true) →
      (fdReadDir p fd buffer limit cookie (.ok entries) (.ok di) (.ok ddi)).2.1 =
        buffer ++ specEmit ((cacheAfter f entries di ddi cookie).drop cookie) cookie 0 limit ∧
      (fdReadDir p fd buffer limit cookie (.ok entries) (.ok di) (.ok ddi)).2.2 = .ESUCCESS ∧
      (∀ i x,
        (specEmit ((cacheAfter f entries di ddi cookie).drop cookie) cookie 0 limit).get? i =
          some x → x.entry.next = cookie + i + 1)) := by
  have hl : lookupFD p fd FDReadDirRight = .ok f := by
    simp [lookupFD, hf, hr]
  refine ⟨?_, ?_, ?_⟩
  · intro h0
    subst h0
    simp only [fdReadDir, hl, if_pos]
    rw [Table.lookup_assign_self]
    simp
  · intro hbig
    have h0 : ¬ cookie = 0 := by
      have : 0 < maxInt := by decide
      omega
    simp only [fdReadDir, hl]
    rw [if_neg h0, if_pos hbig]
  · intro hle hinfo
    by_cases h0 : cookie = 0
    · subst h0
      have hC : cacheAfter f entries di ddi 0 =
          (entries ++ [⟨".", .ok di⟩]) ++ [⟨"..", .ok ddi⟩] := by
        simp [cacheAfter]
      rw [List.drop_zero, hC] at hinfo
      have hloop := readDirLoop_ok ((entries ++ [⟨".", .ok di⟩]) ++ [⟨"..", .ok ddi⟩])
        0 buffer 0 limit hinfo
      simp only [fdReadDir, hl, if_pos]
      rw [List.drop_zero, hC]
      rw [hloop]
      exact ⟨rfl, rfl, fun i x h => specEmit_next _ _ _ _ i x h⟩
    · have hnb : ¬ cookie > maxInt := by omega
      have hC : cacheAfter f entries di ddi cookie = f.dirEntries := by
        simp [cacheAfter, h0]
      rw [hC] at hinfo
      have hloop := readDirLoop_ok (f.dirEntries.drop cookie) cookie buffer 0 limit hinfo
      simp only [fdReadDir, hl]
      rw [if_neg h0, if_neg hnb, hC]
      rw [hloop]
      exact ⟨rfl, rfl, fun i x h => specEmit_next _ _ _ _ i x h⟩

def statRD : FDStat :=
  { fileType := .directory
    flags := 0
    rightsBase := FDReadDirRight
    rightsInheriting := 0 }

def entRD : fdinfo := { path := "d", fd := 15, stat := statRD, dirEntries := [] }

def Prd : Provider := ⟨⟨[some entRD]⟩, ⟨[]⟩⟩

/-- Witness for C8: a restart over one host entry appends that entry
followed by the synthetic dot and dot-dot entries. -/
theorem fdReadDir_spec_witness :
    Prd.fds.lookup 0 = some entRD ∧
    Rights.Has entRD.stat.rightsBase FDReadDirRight = true ∧
    (fdReadDir Prd 0 [] 1000 0 (.ok [⟨"a", .ok (.regularFile, 42)⟩]) (.ok (.directory, 1))
        (.ok (.directory, 2))).2.1 =
      [] ++ specEmit ((cacheAfter entRD [⟨"a", .ok (.regularFile, 42)⟩] (.directory, 1)
        (.directory, 2) 0).drop 0) 0 0 1000 := by
  refine ⟨by decide, by decide, ?_⟩
  exact ((fdReadDir_spec Prd 0 entRD [] 1000 0 [⟨"a", .ok (.regularFile, 42)⟩] (.directory, 1)
    (.directory, 2) (by decide) (by decide)).2.2 (by decide) (by decide)).1

end Wasi